import Mathlib

/-! Shallow embedding of the dehydrated Dreamhost hook repository
(src/deploy.py and src/hook.py) together with proofs about the
specification's claims.  Filesystem state and the provider parameter
dictionary are modelled as association lists; machine effects (rename,
copy, chown, chmod, provider HTTP requests) are explicit state passing;
`sys.exit` is the `DRes.exited` result. -/

/-- Association-list lookup: value of the first entry whose key matches. -/
def alGet {α β : Type} [DecidableEq α] : List (α × β) → α → Option β
  | [], _ => none
  | (k, v) :: rest, key => if k = key then some v else alGet rest key

/-- Association-list update: replace the first entry carrying the key, or
append a new entry at the end.  Mirrors Python dict assignment, which keeps
insertion order and updates in place. -/
def alSet {α β : Type} [DecidableEq α] : List (α × β) → α → β → List (α × β)
  | [], key, val => [(key, val)]
  | (k, v) :: rest, key, val =>
    if k = key then (key, val) :: rest else (k, v) :: alSet rest key val

/-- Association-list removal of the first entry carrying the key. -/
def alRemove {α β : Type} [DecidableEq α] : List (α × β) → α → List (α × β)
  | [], _ => []
  | (k, v) :: rest, key => if k = key then rest else (k, v) :: alRemove rest key

theorem alGet_alSet_self {α β : Type} [DecidableEq α] (l : List (α × β)) (k : α) (v : β) :
    alGet (alSet l k v) k = some v := by
  induction l with
  | nil => simp [alSet, alGet]
  | cons p rest ih =>
    obtain ⟨k', v'⟩ := p
    by_cases h : k' = k <;> simp [alSet, alGet, h, ih]

theorem alGet_alSet_ne {α β : Type} [DecidableEq α] {l : List (α × β)} {k k' : α} {v : β}
    (h : k ≠ k') : alGet (alSet l k v) k' = alGet l k' := by
  induction l with
  | nil => simp [alSet, alGet, h]
  | cons p rest ih =>
    obtain ⟨k0, v0⟩ := p
    by_cases h0 : k0 = k
    · subst h0; simp [alSet, alGet, h]
    · simp only [alSet, if_neg h0, alGet, ih]

theorem alGet_alRemove_ne {α β : Type} [DecidableEq α] {l : List (α × β)} {k k' : α}
    (h : k ≠ k') : alGet (alRemove l k) k' = alGet l k' := by
  induction l with
  | nil => simp [alRemove]
  | cons p rest ih =>
    obtain ⟨k0, v0⟩ := p
    by_cases h0 : k0 = k
    · subst h0; simp [alRemove, alGet, h]
    · simp only [alRemove, if_neg h0, alGet, ih]

/-! ## Model of src/deploy.py -/

/-- Contents and metadata of one file on disk: bytes, owner, group,
permission bits and modification time (os.stat exposes st_uid, st_gid,
st_mode, st_size and st_mtime; st_size is the byte length of the
content).  Every file in this model is a regular file. -/
structure FileData where
  content : String
  uid : Nat
  gid : Nat
  mode : Nat
  mtime : Nat
deriving DecidableEq, Repr

/-- Filesystem state: paths mapped to file data. -/
abbrev FS := List (String × FileData)

/-- os.path.exists. -/
def osPathExists (fs : FS) (p : String) : Bool := (alGet fs p).isSome

/-- os.rename src dst: the entry at src moves to dst, overwriting dst and
keeping content and metadata.  Callers only invoke it with src present
(Python would raise otherwise). -/
def osRename (fs : FS) (src dst : String) : FS :=
  match alGet fs src with
  | some d => alSet (alRemove fs src) dst d
  | none => fs

/-- shutil.copy src dst: dst receives the source's bytes and permission
bits (copyfile + copymode), owned by the running process (procUid,
procGid); timestamps are not preserved, so the new file's mtime is the
time of the copy (now).  Callers only invoke it with src present. -/
def shutilCopy (fs : FS) (src dst : String) (procUid procGid now : Nat) : FS :=
  match alGet fs src with
  | some d => alSet fs dst ⟨d.content, procUid, procGid, d.mode, now⟩
  | none => fs

/-- os.chown p uid gid. Callers only invoke it with p present. -/
def osChown (fs : FS) (p : String) (u g : Nat) : FS :=
  match alGet fs p with
  | some d => alSet fs p { d with uid := u, gid := g }
  | none => fs

/-- os.chmod p mode. Callers only invoke it with p present. -/
def osChmod (fs : FS) (p : String) (m : Nat) : FS :=
  match alGet fs p with
  | some d => alSet fs p { d with mode := m }
  | none => fs

/-- filecmp.cmp(old_file, new_file) at its default shallow=True, for two
regular files (the only kind in this model): when the stat signatures —
file type (always regular here), st_size, st_mtime — are equal, the files
are reported equal without reading any bytes; otherwise the bytes are
compared (files of different sizes compare unequal either way). -/
def filecmpCmp (a b : FileData) : Bool :=
  if a.content.length = b.content.length ∧ a.mtime = b.mtime then true
  else a.content == b.content

/-- deploy_file from src/deploy.py.  `none` is an uncaught exception (both
files were checked by the caller, so the lookups succeed there).  Steps, in
source order: filecmp.cmp, os.stat(old_file), os.rename(old_file,
old_file + ".bak"), shutil.copy(new_file, old_file), os.chown, os.chmod.
`now` is the wall-clock time the copy lands at. -/
def deployFile (procUid procGid now : Nat) (fs : FS) (fileType oldFile newFile : String) :
    Option (FS × Bool) :=
  match alGet fs oldFile, alGet fs newFile with
  | some oldD, some newD =>
    if filecmpCmp oldD newD then
      some (fs, false)
    else
      let st := oldD
      let fs1 := osRename fs oldFile (oldFile ++ ".bak")
      let fs2 := shutilCopy fs1 newFile oldFile procUid procGid now
      let fs3 := osChown fs2 oldFile st.uid st.gid
      let fs4 := osChmod fs3 oldFile st.mode
      some (fs4, true)
  | _, _ => none

/-- Result of a computation that may terminate the process via sys.exit. -/
inductive DRes (α : Type) where
  | ok : α → DRes α
  | exited : String → DRes α
deriving DecidableEq, Repr

/-- Whether a result is a fatal process exit. -/
def isExited {α : Type} : DRes α → Bool
  | DRes.exited _ => true
  | DRes.ok _ => false

/-- LETSENCRYPT_ROOT template instantiated with domain and file type. -/
def letsencryptRoot (domain pem : String) : String :=
  "/etc/dehydrated/certs/" ++ domain ++ "/" ++ pem ++ ".pem"

/-- Inner loop of deploy_domain over the (file_type, old path) pairs of a
single location dict (Python iterates location.keys() in insertion
order).  For each pair: derive the new file path from the template, exit
fatally if the new file is absent, exit fatally if the old file is
absent, otherwise deploy and accumulate the deployed flag. -/
def deployPairs (domain : String) (procUid procGid now : Nat) :
    FS → Bool → List (String × String) → FS × DRes Bool
  | fs, deployed, [] => (fs, DRes.ok deployed)
  | fs, deployed, (fileType, oldFile) :: rest =>
    let newFile := letsencryptRoot domain fileType
    if osPathExists fs newFile = false then
      (fs, DRes.exited ("Could not locate new " ++ fileType))
    else if osPathExists fs oldFile = false then
      (fs, DRes.exited ("Could not locate old " ++ fileType))
    else
      match deployFile procUid procGid now fs fileType oldFile newFile with
      | some (fs', chg) => deployPairs domain procUid procGid now fs' (deployed || chg) rest
      | none => (fs, DRes.exited "uncaught exception")

/-- Outer loop of deploy_domain over the configured locations. -/
def deployLocs (domain : String) (procUid procGid now : Nat) :
    FS → Bool → List (List (String × String)) → FS × DRes Bool
  | fs, deployed, [] => (fs, DRes.ok deployed)
  | fs, deployed, loc :: rest =>
    match deployPairs domain procUid procGid now fs deployed loc with
    | (fs', DRes.ok deployed') => deployLocs domain procUid procGid now fs' deployed' rest
    | (fs', DRes.exited m) => (fs', DRes.exited m)

/-- deploy_domain from src/deploy.py: deployed starts False and aggregates
across all locations and file types of the domain. -/
def deployDomain (domain : String) (config : List (List (String × String)))
    (procUid procGid now : Nat) (fs : FS) : FS × DRes Bool :=
  deployLocs domain procUid procGid now fs false config

/-- Parsed deployment config: the `domains` mapping (in file order) and
the `post_actions` command list. -/
structure DeployConfig where
  domains : List (String × List (List (String × String)))
  post_actions : List String
deriving DecidableEq, Repr

/-- Loop of run_deployment over the configured domains, aggregating
saw_new_deployments. -/
def runDomains (procUid procGid now : Nat) :
    FS → Bool → List (String × List (List (String × String))) → FS × DRes Bool
  | fs, saw, [] => (fs, DRes.ok saw)
  | fs, saw, (domain, cfg) :: rest =>
    match deployDomain domain cfg procUid procGid now fs with
    | (fs', DRes.ok deployed) => runDomains procUid procGid now fs' (saw || deployed) rest
    | (fs', DRes.exited m) => (fs', DRes.exited m)

/-- run_deployment from src/deploy.py.  The middle component lists the
post-deployment actions launched (subprocess.call is attempted for every
configured action when saw_new_deployments holds; an OSError is caught
and reported, so every action is launched). -/
def runDeployment (cfg : DeployConfig) (procUid procGid now : Nat) (fs : FS) :
    FS × List String × DRes Unit :=
  match runDomains procUid procGid now fs false cfg.domains with
  | (fs', DRes.ok saw) => (fs', (if saw then cfg.post_actions else []), DRes.ok ())
  | (fs', DRes.exited m) => (fs', [], DRes.exited m)

/-! ## Model of src/hook.py -/

/-- DNS name of a domain's challenge record: the format call
`'_acme-challenge' + '.' + domain` (DNS_ PREFIX global in the source). -/
def challengeRecord (domain : String) : String := "_acme-challenge" ++ "." ++ domain

/-- Parameter dictionary for the Dreamhost API (HOST_API_PARAMS in the
source): a single process-wide mutable dict initialised with the API key
and output format.  Python's `x = HOST_API_PARAMS` aliases it, so each
API helper below returns the mutated dict as the new process-wide value. -/
abbrev Dict := List (String × String)

/-- Initial value of the process-wide parameter dict. -/
def initialHostApiParams (apiKey : String) : Dict :=
  [("key", apiKey), ("format", "json")]

/-- Parameter mutation performed by remove_record: the aliased global dict
receives cmd, record, type and value entries; the resulting dict is both
the query string of the GET request and the new global dict. -/
def removeRecordParams (g : Dict) (record value : String) : Dict :=
  alSet (alSet (alSet (alSet g "cmd" "dns-remove_record") "record" record) "type" "TXT") "value" value

/-- Parameter mutation performed by add_record (same aliasing). -/
def addRecordParams (g : Dict) (record value : String) : Dict :=
  alSet (alSet (alSet (alSet g "cmd" "dns-add_record") "record" record) "type" "TXT") "value" value

/-- Parameter mutation performed by record_exists: only the cmd entry is
written; whatever record, type and value entries the dict already holds
are sent along with the request. -/
def recordExistsParams (g : Dict) : Dict := alSet g "cmd" "dns-list_records"

/-- Command entry of a request's parameter dict. -/
def callCmd (d : Dict) : Option String := alGet d "cmd"

/-- Value entry of a request's parameter dict. -/
def callValue (d : Dict) : Option String := alGet d "value"

/-- Scan record_exists performs over the provider's dns-list_records
response: the first item whose record name matches yields (True, value),
otherwise (False, None).  The response items are (record, value) pairs. -/
def recordExistsLookup : List (String × String) → String → Option String
  | [], _ => none
  | (r, v) :: rest, record =>
    if r = record then some v else recordExistsLookup rest record

/-- One resolver poll as seen by has_dns_propagated: either the TXT query
raised a dns.exception.DNSException, or it answered with a list of TXT
rdatas, each rdata being its list of character-strings (a TXT record may
carry several quoted segments). -/
inductive PollResult where
  | fail : PollResult
  | answer : List (List String) → PollResult
deriving DecidableEq, Repr

/-- The space-separated join performed by str.join. -/
def joinSpace : List String → String
  | [] => ""
  | [s] => s
  | s :: rest => s ++ " " ++ joinSpace rest

/-- dnspython's rdata.to_text() for a TXT rdata: each character-string is
surrounded by double quotes, and the quoted segments are joined with
single spaces. -/
def txtToText (segs : List String) : String :=
  joinSpace (segs.map (fun s => "\"" ++ s ++ "\""))

/-- Python slicing s[1:-1]: drop the first and the last character. -/
def stripEnds (s : String) : String := String.mk ((s.data.drop 1).dropLast)

/-- has_dns_propagated from src/hook.py, as a function of the resolver's
answer and the global DNS_COUNTER: a resolver exception is caught and
yields False with the counter untouched; otherwise every rdata's
to_text()[1:-1] is collected, and if the expected value is among them the
counter is incremented and True is returned exactly when the incremented
counter equals 3.  The counter is never reset. -/
def hasDnsPropagated (value : String) (pr : PollResult) (counter : Nat) : Bool × Nat :=
  match pr with
  | PollResult.fail => (false, counter)
  | PollResult.answer rdatas =>
    let txtRecords := rdatas.map (fun segs => stripEnds (txtToText segs))
    if value ∈ txtRecords then
      (counter + 1 == 3, counter + 1)
    else
      (false, counter)

/-- Whether a single poll observes the expected value (the membership test
of has_dns_propagated). -/
def isHit (value : String) (pr : PollResult) : Bool :=
  match pr with
  | PollResult.fail => false
  | PollResult.answer rdatas =>
    decide (value ∈ rdatas.map (fun segs => stripEnds (txtToText segs)))

/-- Number of polls of a schedule that observe the expected value. -/
def countHits (value : String) (obs : List PollResult) : Nat :=
  obs.countP (fun pr => isHit value pr)

/-- The `while has_dns_propagated(record, token) is False` loop of
deploy_challenge, run against a finite schedule of resolver observations.
Returns the final DNS_COUNTER and, when the loop terminated, the number
of polls consumed; `none` means the schedule was exhausted with the loop
still spinning. -/
def pollLoop (value : String) : Nat → List PollResult → Nat × Option Nat
  | c, [] => (c, none)
  | c, pr :: rest =>
    let step := hasDnsPropagated value pr c
    if step.1 then
      (step.2, some 1)
    else
      let cont := pollLoop value step.2 rest
      (cont.1, cont.2.map (fun n => n + 1))

/-- Whether a boolean trace contains three consecutive `true` entries. -/
def hasThreeConsec : List Bool → Bool
  | true :: true :: true :: _ => true
  | _ :: rest => hasThreeConsec rest
  | [] => false

/-- Outcome of deploy_challenge: the provider requests issued (each one a
full parameter dict, in order), the final process-wide parameter dict,
the final DNS_COUNTER, and the poll-loop outcome. -/
structure ChalResult where
  calls : List Dict
  finalParams : Dict
  counter : Nat
  polled : Option Nat
deriving DecidableEq, Repr

/-- deploy_challenge from src/hook.py (domain is args[0], token args[2]):
build the challenge record name, call record_exists; if a record is
found, remove it (with the found value) and settle; add the new record
with the token and settle; then poll until has_dns_propagated succeeds.
`store` is the provider's dns-list_records response data, `obs` the
schedule of resolver observations, `g` and `counter` the process-wide
HOST_API_PARAMS and DNS_COUNTER at entry. -/
def deployChallenge (g : Dict) (store : List (String × String)) (counter : Nat)
    (obs : List PollResult) (domain token : String) : ChalResult :=
  let record := challengeRecord domain
  let g1 := recordExistsParams g
  match recordExistsLookup store record with
  | some v =>
    let g2 := removeRecordParams g1 record v
    let g3 := addRecordParams g2 record token
    { calls := [g1, g2, g3], finalParams := g3,
      counter := (pollLoop token counter obs).1, polled := (pollLoop token counter obs).2 }
  | none =>
    let g2 := addRecordParams g1 record token
    { calls := [g1, g2], finalParams := g2,
      counter := (pollLoop token counter obs).1, polled := (pollLoop token counter obs).2 }

/-- clean_challenge from src/hook.py: call record_exists; when a record is
found, wait and remove it (with the found value); otherwise nothing else
happens.  Returns the provider requests issued and the final parameter
dict. -/
def cleanChallenge (g : Dict) (store : List (String × String)) (domain : String) :
    List Dict × Dict :=
  let record := challengeRecord domain
  let g1 := recordExistsParams g
  match recordExistsLookup store record with
  | some v =>
    let g2 := removeRecordParams g1 record v
    ([g1, g2], g2)
  | none => ([g1], g1)

/-- Modelled from the spec: the provider's HTTP API, which is external to
the repository, "treated as an opaque record store with list/add/remove
operations" — dns-list_records reads the store, dns-add_record appends a
(record, value) pair, dns-remove_record deletes the matching pairs. -/
def applyCall (store : List (String × String)) (d : Dict) : List (String × String) :=
  if callCmd d = some "dns-add_record" then
    match alGet d "record", alGet d "value" with
    | some r, some v => store ++ [(r, v)]
    | _, _ => store
  else if callCmd d = some "dns-remove_record" then
    match alGet d "record", alGet d "value" with
    | some r, some v => store.filter (fun it => !(it.1 == r && it.2 == v))
    | _, _ => store
  else store

/-- Modelled from the spec: effect of a sequence of provider requests on
the opaque record store. -/
def applyCalls (store : List (String × String)) : List Dict → List (String × String)
  | [] => store
  | d :: rest => applyCalls (applyCall store d) rest

/-! ## Helper lemmas about the propagation poll -/

theorem hasDns_branch (value : String) (pr : PollResult) (c : Nat) :
    hasDnsPropagated value pr c =
      if isHit value pr then ((c + 1 == 3 : Bool), c + 1) else (false, c) := by
  cases pr with
  | fail => rfl
  | answer rdatas =>
    simp only [hasDnsPropagated, isHit, decide_eq_true_eq]

theorem hasDns_fst_false_of_ge (value : String) (pr : PollResult) (c : Nat) (h : 3 ≤ c) :
    (hasDnsPropagated value pr c).1 = false := by
  rw [hasDns_branch]
  by_cases hh : isHit value pr = true
  · simp only [hh, if_true]
    exact beq_eq_false_iff_ne.mpr (by omega)
  · simp [hh]

theorem hasDns_snd_ge (value : String) (pr : PollResult) (c : Nat) :
    c ≤ (hasDnsPropagated value pr c).2 := by
  rw [hasDns_branch]
  by_cases hh : isHit value pr = true <;> simp [hh]

theorem pollLoop_none_of_ge (value : String) :
    ∀ (obs : List PollResult) (c : Nat), 3 ≤ c → (pollLoop value c obs).2 = none := by
  intro obs
  induction obs with
  | nil => intro c _; rfl
  | cons pr rest ih =>
    intro c hc
    have h1 := hasDns_fst_false_of_ge value pr c hc
    have h2 := hasDns_snd_ge value pr c
    simp only [pollLoop, h1, Bool.false_eq_true, if_false]
    rw [ih ((hasDnsPropagated value pr c).2) (hc.trans h2)]
    rfl

theorem isSome_map_succ (o : Option Nat) :
    ((o.map (fun n => n + 1)).isSome) = o.isSome := by
  cases o <;> rfl

theorem pollLoop_cons (value : String) (c : Nat) (pr : PollResult) (rest : List PollResult) :
    pollLoop value c (pr :: rest) =
      if isHit value pr then
        (if c + 1 = 3 then (c + 1, some 1)
         else ((pollLoop value (c + 1) rest).1,
           ((pollLoop value (c + 1) rest).2).map (fun n => n + 1)))
      else ((pollLoop value c rest).1, ((pollLoop value c rest).2).map (fun n => n + 1)) := by
  by_cases hh : isHit value pr = true
  · by_cases h3 : c + 1 = 3
    · have hb : (c + 1 == 3) = true := beq_iff_eq.mpr h3
      simp [pollLoop, hasDns_branch, hh, hb, h3]
    · have hb : (c + 1 == 3) = false := beq_eq_false_iff_ne.mpr h3
      simp [pollLoop, hasDns_branch, hh, hb, h3]
  · simp [pollLoop, hasDns_branch, hh]

theorem pollLoop_some_aux (value : String) :
    ∀ (obs : List PollResult) (c : Nat), c < 3 →
      (((pollLoop value c obs).2).isSome = true ↔ 3 ≤ c + countHits value obs) := by
  intro obs
  induction obs with
  | nil =>
    intro c hc
    simp [pollLoop, countHits]
    omega
  | cons pr rest ih =>
    intro c hc
    have hcnt : countHits value (pr :: rest) =
        countHits value rest + (if isHit value pr then 1 else 0) := by
      simp [countHits, List.countP_cons]
    rw [pollLoop_cons, hcnt]
    by_cases hh : isHit value pr = true
    · rw [if_pos hh, if_pos hh]
      by_cases h3 : c + 1 = 3
      · rw [if_pos h3]
        simp only [Option.isSome_some]
        constructor
        · intro _; omega
        · intro _; trivial
      · rw [if_neg h3]
        simp only [isSome_map_succ]
        rw [ih (c + 1) (by omega)]
        omega
    · rw [if_neg hh, if_neg hh]
      simp only [isSome_map_succ]
      rw [ih c hc]
      omega

/-! ## Claims C2, C4, C7, C10: propagation polling -/

/-- Schedule used by the C2 counterexample: confirming, non-confirming
(token absent), confirming, confirming. -/
def pollSchedEx : List PollResult :=
  [PollResult.answer [["tok"]], PollResult.answer [["other"]],
   PollResult.answer [["tok"]], PollResult.answer [["tok"]]]

/-- C2 (counterexample): starting from counter 0, the loop terminates with
success on the 4th poll of the schedule hit, miss, hit, hit, although no 3
consecutive confirming polls occur — a non-confirming observation does not
start the count over, contradicting the claim. -/
theorem pollLoop_nonconsecutive_success :
    pollLoop "tok" 0 pollSchedEx = (3, some 4) ∧
    hasThreeConsec (pollSchedEx.map (fun pr => isHit "tok" pr)) = false := by
  constructor
  · rfl
  · rfl

/-- C2 (amended): starting from counter 0, the poll loop terminates with
success exactly when the schedule contains at least 3 confirming polls,
consecutive or not: the counter accumulates confirming observations and is
never reset by a non-confirming or failed observation. -/
theorem pollLoop_succeeds_iff_three_hits (value : String) (obs : List PollResult) :
    ((pollLoop value 0 obs).2).isSome = true ↔ 3 ≤ countHits value obs := by
  have h := pollLoop_some_aux value obs 0 (by omega)
  simpa using h

/-- C4 (confirmed): a resolver exception during a poll yields
not-propagated with the counter exactly unchanged, and the loop simply
moves on to the next poll: same final counter and same success outcome as
the schedule without the failed poll.  The exception is consumed inside
has_dns_propagated (the model's total fail branch), so it never escapes to
terminate the process. -/
theorem hasDnsPropagated_resolver_failure_soft (value : String) (counter : Nat)
    (rest : List PollResult) :
    hasDnsPropagated value PollResult.fail counter = (false, counter) ∧
    (pollLoop value counter (PollResult.fail :: rest)).1 = (pollLoop value counter rest).1 ∧
    ((pollLoop value counter (PollResult.fail :: rest)).2).isSome =
      ((pollLoop value counter rest).2).isSome := by
  refine ⟨rfl, ?_, ?_⟩ <;> simp [pollLoop, hasDnsPropagated]

/-- C7 (counterexample): a token stored as the two quoted segments "ab"
and "cd" renders as a space-separated pair of quoted strings; stripping
only the first and last character does not concatenate the segments, so
the expected token abcd is not matched even with the counter poised at 2. -/
theorem hasDnsPropagated_multisegment_miss :
    txtToText ["ab", "cd"] = "\"ab\" \"cd\"" ∧
    stripEnds (txtToText ["ab", "cd"]) ≠ "abcd" ∧
    hasDnsPropagated "abcd" (PollResult.answer [["ab", "cd"]]) 2 = (false, 2) := by
  refine ⟨rfl, by decide, rfl⟩

/-- C7 (amended): each returned TXT record's text rendering has exactly
its first and last character removed before comparison; for a
single-segment record this strips the surrounding quotes, so the segment
compares equal to the expected token, but multi-string segments are not
concatenated. -/
theorem stripEnds_single_segment (s : String) (c : Nat) :
    stripEnds (txtToText [s]) = s ∧
    hasDnsPropagated s (PollResult.answer [[s]]) c = ((c + 1 == 3 : Bool), c + 1) := by
  have h1 : stripEnds (txtToText [s]) = s := by
    show stripEnds ("\"" ++ s ++ "\"") = s
    obtain ⟨d⟩ := s
    show String.mk ((("\"" ++ String.mk d ++ "\"").data.drop 1).dropLast) = String.mk d
    have hd : ("\"" ++ String.mk d ++ "\"").data = '"' :: (d ++ ['"']) := by
      simp [String.data_append]
    rw [hd]
    simp [List.dropLast_concat]
  refine ⟨h1, ?_⟩
  simp [hasDnsPropagated, h1]

/-- C10 (confirmed): once the global counter is at least 3 when polling
begins, has_dns_propagated can never return True again (the success test
is equality with 3 while the counter only grows), so the polling loop
exhausts every schedule without terminating. -/
theorem pollLoop_counter_ge_three_stuck (value : String) (c : Nat) (pr : PollResult)
    (obs : List PollResult) (h : 3 ≤ c) :
    (hasDnsPropagated value pr c).1 = false ∧ (pollLoop value c obs).2 = none :=
  ⟨hasDns_fst_false_of_ge value pr c h, pollLoop_none_of_ge value obs c h⟩

/-- C10 (witness): the theorem applied at counter 3 with a schedule of
three confirming polls. -/
theorem pollLoop_counter_ge_three_stuck_witness :
    (hasDnsPropagated "t" (PollResult.answer [["t"]]) 3).1 = false ∧
    (pollLoop "t" 3 [PollResult.answer [["t"]], PollResult.answer [["t"]],
      PollResult.answer [["t"]]]).2 = none :=
  pollLoop_counter_ge_three_stuck "t" 3 (PollResult.answer [["t"]])
    [PollResult.answer [["t"]], PollResult.answer [["t"]], PollResult.answer [["t"]]]
    (by omega)


/-! ## Claims C1, C3, C6: certificate deployment -/

theorem append_bak_ne (s : String) : s ++ ".bak" ≠ s := by
  intro h
  have hl := congrArg String.length h
  rw [String.length_append] at hl
  have h4 : String.length ".bak" = 4 := by decide
  omega

/-- Filesystem of the C1 counterexample: the first pair's files exist and
differ (in content and in mtime, so the shallow comparison does not
short-circuit), the second pair's new source file is absent. -/
def c1Fs : FS := [("/old1", ⟨"a", 0, 0, 420, 1⟩),
  ("/etc/dehydrated/certs/d/cert.pem", ⟨"b", 0, 0, 420, 2⟩),
  ("/old2", ⟨"c", 0, 0, 420, 3⟩)]

/-- Location list of the C1 counterexample: one location mapping cert to
/old1 and privkey to /old2. -/
def c1Cfg : List (List (String × String)) := [[("cert", "/old1"), ("privkey", "/old2")]]

/-- C1 (counterexample): the new privkey file required by the second
(location, file-type) pair is absent, deploy_domain exits fatally — yet
the first pair was already deployed: a backup /old1.bak was created and
the filesystem mutated.  The missing-file check is not all-or-nothing over
the whole domain before the first write. -/
theorem deployDomain_not_all_or_nothing :
    osPathExists c1Fs (letsencryptRoot "d" "privkey") = false ∧
    isExited (deployDomain "d" c1Cfg 0 0 7 c1Fs).2 = true ∧
    alGet (deployDomain "d" c1Cfg 0 0 7 c1Fs).1 ("/old1" ++ ".bak")
      = some ⟨"a", 0, 0, 420, 1⟩ ∧
    (deployDomain "d" c1Cfg 0 0 7 c1Fs).1 ≠ c1Fs := by
  refine ⟨rfl, rfl, rfl, by decide⟩

/-- C1 (amended): the missing-file check is per pair, interleaved with the
writes: when the iteration reaches a (file-type, old-path) pair whose new
source file or existing destination file is absent, it exits fatally with
the filesystem exactly as it was at that point — no mutation for that pair
or any later pair, while earlier pairs may already have been deployed.  In
particular a domain whose first pair is incomplete is never mutated at
all. -/
theorem deployPairs_missing_file_no_mutation (domain : String) (procUid procGid now : Nat)
    (fs : FS) (deployed : Bool) (fileType oldFile : String) (rest : List (String × String))
    (locs : List (List (String × String)))
    (h : osPathExists fs (letsencryptRoot domain fileType) = false ∨
         osPathExists fs oldFile = false) :
    ((deployPairs domain procUid procGid now fs deployed
        ((fileType, oldFile) :: rest)).1 = fs ∧
      isExited (deployPairs domain procUid procGid now fs deployed
        ((fileType, oldFile) :: rest)).2 = true) ∧
    ((deployDomain domain (((fileType, oldFile) :: rest) :: locs)
        procUid procGid now fs).1 = fs ∧
      isExited (deployDomain domain (((fileType, oldFile) :: rest) :: locs)
        procUid procGid now fs).2 = true) := by
  rcases h with h | h
  · constructor
    · constructor <;> simp [deployPairs, h, isExited]
    · constructor <;> simp [deployDomain, deployLocs, deployPairs, h, isExited]
  · by_cases hn : osPathExists fs (letsencryptRoot domain fileType) = false
    · constructor
      · constructor <;> simp [deployPairs, hn, isExited]
      · constructor <;> simp [deployDomain, deployLocs, deployPairs, hn, isExited]
    · constructor
      · constructor <;> simp [deployPairs, hn, h, isExited]
      · constructor <;> simp [deployDomain, deployLocs, deployPairs, hn, h, isExited]

/-- C1 (witness): the amended theorem applied to an empty filesystem,
where the first pair's new source file is absent and nothing is mutated. -/
theorem deployPairs_missing_file_no_mutation_witness :
    ((deployPairs "d" 0 0 0 [] false [("cert", "/o")]).1 = [] ∧
      isExited (deployPairs "d" 0 0 0 [] false [("cert", "/o")]).2 = true) ∧
    ((deployDomain "d" [[("cert", "/o")]] 0 0 0 []).1 = [] ∧
      isExited (deployDomain "d" [[("cert", "/o")]] 0 0 0 []).2 = true) :=
  deployPairs_missing_file_no_mutation "d" 0 0 0 [] false "cert" "/o" [] []
    (Or.inl (by decide))

/-- Filesystem of the first C3 counterexample: contents differ
byte-for-byte, but size and mtime are equal, so the shallow comparison
short-circuits without reading any bytes. -/
def eqSigFs : FS := [("a", ⟨"xx", 0, 0, 6, 100⟩), ("n", ⟨"yy", 2, 3, 7, 100⟩)]

/-- Filesystem of the second C3 counterexample: the new file sits exactly
at the destination's backup path (signatures differ, so the comparison
falls through to the bytes). -/
def aliasFs : FS := [("a", ⟨"x", 0, 0, 6, 10⟩), ("a.bak", ⟨"y", 1, 1, 7, 20⟩)]

/-- C3 (counterexample): the claim fails in two independent ways.  First,
for byte-differing files of equal size and mtime, filecmp.cmp at its
default shallow setting reports them equal from the stat signatures
alone, so deploy_file skips deployment and returns False instead of True.
Second, with new_file = old_file + ".bak" and differing signatures,
deploy_file returns True but the rename clobbers the new file before the
copy reads it back, so the destination ends up with its original content
x instead of the new file's content y. -/
theorem deployFile_shallow_and_alias_counterexample :
    ((alGet eqSigFs "a").map FileData.content = some "xx" ∧
     (alGet eqSigFs "n").map FileData.content = some "yy" ∧
     ("xx" : String) ≠ "yy" ∧
     deployFile 5 5 50 eqSigFs "cert" "a" "n" = some (eqSigFs, false)) ∧
    ((alGet aliasFs "a").map FileData.content = some "x" ∧
     (alGet aliasFs ("a" ++ ".bak")).map FileData.content = some "y" ∧
     (deployFile 5 5 50 aliasFs "cert" "a" "a.bak").map (fun p => p.2) = some true ∧
     (deployFile 5 5 50 aliasFs "cert" "a" "a.bak").map
       (fun p => (alGet p.1 "a").map FileData.content) = some (some "x") ∧
     ("x" : String) ≠ "y") := by
  refine ⟨⟨rfl, rfl, by decide, rfl⟩, ⟨rfl, rfl, rfl, rfl, by decide⟩⟩

/-- C3 (amended): for every (old_file, new_file) pair whose contents
differ byte-for-byte, provided the two files' stat signatures also differ
(different size or different mtime — otherwise the shallow filecmp.cmp
short-circuit reports them equal and deploy_file skips), and provided
new_file is not the backup path old_file + ".bak" itself, deploy_file
returns True and afterwards the backup holds the original content and
metadata, the destination holds the new content (stamped with the copy's
own mtime), and the destination's owner, group and permission bits equal
the metadata captured from the original file. -/
theorem deployFile_differing_deploys (procUid procGid now : Nat) (fs : FS)
    (fileType oldFile newFile : String) (oldD newD : FileData)
    (hOld : alGet fs oldFile = some oldD) (hNew : alGet fs newFile = some newD)
    (hDiff : oldD.content ≠ newD.content)
    (hSig : oldD.content.length ≠ newD.content.length ∨ oldD.mtime ≠ newD.mtime)
    (hAlias : newFile ≠ oldFile ++ ".bak") :
    ∃ fs', deployFile procUid procGid now fs fileType oldFile newFile = some (fs', true) ∧
      alGet fs' (oldFile ++ ".bak") = some oldD ∧
      alGet fs' oldFile = some ⟨newD.content, oldD.uid, oldD.gid, oldD.mode, now⟩ := by
  have hneq : newFile ≠ oldFile := by
    intro e
    have : some oldD = some newD := by rw [← hOld, ← hNew, e]
    exact hDiff (by cases this; rfl)
  have hbak : oldFile ++ ".bak" ≠ oldFile := append_bak_ne oldFile
  have hcmp : filecmpCmp oldD newD = false := by
    have hs : ¬(oldD.content.length = newD.content.length ∧ oldD.mtime = newD.mtime) := by
      rcases hSig with h | h <;> exact fun hc => h (by simp [hc.1, hc.2])
    rw [filecmpCmp, if_neg hs]
    exact beq_eq_false_iff_ne.mpr hDiff
  have h1 : osRename fs oldFile (oldFile ++ ".bak") =
      alSet (alRemove fs oldFile) (oldFile ++ ".bak") oldD := by
    unfold osRename; rw [hOld]
  have h2 : alGet (alSet (alRemove fs oldFile) (oldFile ++ ".bak") oldD) newFile
      = some newD := by
    rw [alGet_alSet_ne (fun e => hAlias e.symm), alGet_alRemove_ne (fun e => hneq e.symm)]
    exact hNew
  have h3 : shutilCopy (alSet (alRemove fs oldFile) (oldFile ++ ".bak") oldD)
        newFile oldFile procUid procGid now =
      alSet (alSet (alRemove fs oldFile) (oldFile ++ ".bak") oldD) oldFile
        ⟨newD.content, procUid, procGid, newD.mode, now⟩ := by
    unfold shutilCopy; rw [h2]
  have hstep : deployFile procUid procGid now fs fileType oldFile newFile =
      some (osChmod (osChown (shutilCopy (osRename fs oldFile (oldFile ++ ".bak"))
        newFile oldFile procUid procGid now) oldFile oldD.uid oldD.gid) oldFile oldD.mode,
        true) := by
    unfold deployFile
    simp only [hOld, hNew]
    rw [if_neg (by simp [hcmp])]
  rw [hstep, h1, h3]
  have h4 : osChown (alSet (alSet (alRemove fs oldFile) (oldFile ++ ".bak") oldD) oldFile
        ⟨newD.content, procUid, procGid, newD.mode, now⟩) oldFile oldD.uid oldD.gid =
      alSet (alSet (alSet (alRemove fs oldFile) (oldFile ++ ".bak") oldD) oldFile
        ⟨newD.content, procUid, procGid, newD.mode, now⟩) oldFile
        ⟨newD.content, oldD.uid, oldD.gid, newD.mode, now⟩ := by
    unfold osChown; rw [alGet_alSet_self]
  rw [h4]
  have h5 : osChmod (alSet (alSet (alSet (alRemove fs oldFile) (oldFile ++ ".bak") oldD)
        oldFile ⟨newD.content, procUid, procGid, newD.mode, now⟩) oldFile
        ⟨newD.content, oldD.uid, oldD.gid, newD.mode, now⟩) oldFile oldD.mode =
      alSet (alSet (alSet (alSet (alRemove fs oldFile) (oldFile ++ ".bak") oldD)
        oldFile ⟨newD.content, procUid, procGid, newD.mode, now⟩) oldFile
        ⟨newD.content, oldD.uid, oldD.gid, newD.mode, now⟩) oldFile
        ⟨newD.content, oldD.uid, oldD.gid, oldD.mode, now⟩ := by
    unfold osChmod; rw [alGet_alSet_self]
  rw [h5]
  refine ⟨_, rfl, ?_, ?_⟩
  · rw [alGet_alSet_ne (fun e => hbak e.symm), alGet_alSet_ne (fun e => hbak e.symm),
      alGet_alSet_ne (fun e => hbak e.symm)]
    exact alGet_alSet_self _ _ _
  · exact alGet_alSet_self _ _ _

/-- C3 (witness): the amended theorem applied to two distinct concrete
files with differing content, differing mtime and differing metadata. -/
theorem deployFile_differing_deploys_witness :
    ∃ fs', deployFile 5 5 50 [("a", ⟨"x", 0, 0, 6, 10⟩), ("n", ⟨"y", 2, 3, 7, 20⟩)]
        "cert" "a" "n" = some (fs', true) ∧
      alGet fs' ("a" ++ ".bak") = some ⟨"x", 0, 0, 6, 10⟩ ∧
      alGet fs' "a" = some ⟨"y", 0, 0, 6, 50⟩ :=
  deployFile_differing_deploys 5 5 50 [("a", ⟨"x", 0, 0, 6, 10⟩), ("n", ⟨"y", 2, 3, 7, 20⟩)]
    "cert" "a" "n" ⟨"x", 0, 0, 6, 10⟩ ⟨"y", 2, 3, 7, 20⟩ rfl rfl (by decide)
    (Or.inr (by decide)) (by decide)

/-- Config of the C6 counterexample: two domains, both mapped, and one
post-deployment action. -/
def c6Cfg : DeployConfig :=
  ⟨[("d1", [[("cert", "/a")]]), ("d2", [[("cert", "/b")]])], ["reload-service"]⟩

/-- Filesystem of the C6 counterexample: d1's files exist and differ in
content and mtime (a real change, not short-circuited by the shallow
comparison), d2's new source file is absent (fatal exit). -/
def c6Fs : FS := [("/a", ⟨"oldcert", 0, 0, 420, 1⟩),
  ("/etc/dehydrated/certs/d1/cert.pem", ⟨"newcert", 0, 0, 420, 2⟩),
  ("/b", ⟨"z", 0, 0, 420, 3⟩)]

/-- C6 (counterexample): domain d1 reports a real file change, but the run
is terminated by d2's missing new file before the post-deployment stage,
so zero of the configured actions are launched — refuting the
if-and-only-if as stated. -/
theorem runDeployment_exit_after_change :
    (deployDomain "d1" [[("cert", "/a")]] 0 0 9 c6Fs).2 = DRes.ok true ∧
    c6Cfg.post_actions ≠ [] ∧
    (runDeployment c6Cfg 0 0 9 c6Fs).2.1 = [] ∧
    isExited (runDeployment c6Cfg 0 0 9 c6Fs).2.2 = true := by
  refine ⟨rfl, by decide, rfl, rfl⟩

/-- C6 (amended): in a run that completes without a fatal exit, the
configured post-deployment actions are launched exactly when the domain
loop aggregated at least one real file change, and none are launched when
every domain is unchanged; in a run terminated by a fatal missing-file
exit, zero actions are launched even if an earlier domain had reported a
change. -/
theorem runDeployment_actions_characterization (cfg : DeployConfig)
    (procUid procGid now : Nat) (fs : FS) :
    (runDeployment cfg procUid procGid now fs).2.1 =
      (match runDomains procUid procGid now fs false cfg.domains with
        | (_, DRes.ok saw) => if saw then cfg.post_actions else []
        | (_, DRes.exited _) => []) := by
  unfold runDeployment
  rcases hr : runDomains procUid procGid now fs false cfg.domains with ⟨fs', res⟩
  cases res <;> simp

/-! ## Claims C5, C8, C9: provider call discipline and the shared
parameter dictionary -/

theorem apiQuad_cmd (g : Dict) (c r v : String) :
    alGet (alSet (alSet (alSet (alSet g "cmd" c) "record" r) "type" "TXT") "value" v) "cmd"
      = some c := by
  rw [alGet_alSet_ne (show ("value" : String) ≠ "cmd" by decide),
    alGet_alSet_ne (show ("type" : String) ≠ "cmd" by decide),
    alGet_alSet_ne (show ("record" : String) ≠ "cmd" by decide)]
  exact alGet_alSet_self _ _ _

theorem apiQuad_record (g : Dict) (c r v : String) :
    alGet (alSet (alSet (alSet (alSet g "cmd" c) "record" r) "type" "TXT") "value" v) "record"
      = some r := by
  rw [alGet_alSet_ne (show ("value" : String) ≠ "record" by decide),
    alGet_alSet_ne (show ("type" : String) ≠ "record" by decide)]
  exact alGet_alSet_self _ _ _

theorem apiQuad_type (g : Dict) (c r v : String) :
    alGet (alSet (alSet (alSet (alSet g "cmd" c) "record" r) "type" "TXT") "value" v) "type"
      = some "TXT" := by
  rw [alGet_alSet_ne (show ("value" : String) ≠ "type" by decide)]
  exact alGet_alSet_self _ _ _

theorem apiQuad_value (g : Dict) (c r v : String) :
    alGet (alSet (alSet (alSet (alSet g "cmd" c) "record" r) "type" "TXT") "value" v) "value"
      = some v :=
  alGet_alSet_self _ _ _

theorem callCmd_recordExistsParams (g : Dict) :
    callCmd (recordExistsParams g) = some "dns-list_records" :=
  alGet_alSet_self g "cmd" "dns-list_records"

theorem alGet_recordExistsParams_ne (g : Dict) {k : String} (h : ("cmd" : String) ≠ k) :
    alGet (recordExistsParams g) k = alGet g k :=
  alGet_alSet_ne h

theorem callCmd_addRecordParams (g : Dict) (r v : String) :
    callCmd (addRecordParams g r v) = some "dns-add_record" :=
  apiQuad_cmd g "dns-add_record" r v

theorem callValue_addRecordParams (g : Dict) (r v : String) :
    callValue (addRecordParams g r v) = some v :=
  apiQuad_value g "dns-add_record" r v

theorem callCmd_removeRecordParams (g : Dict) (r v : String) :
    callCmd (removeRecordParams g r v) = some "dns-remove_record" :=
  apiQuad_cmd g "dns-remove_record" r v

theorem callValue_removeRecordParams (g : Dict) (r v : String) :
    callValue (removeRecordParams g r v) = some v :=
  apiQuad_value g "dns-remove_record" r v

/-- C5 (confirmed): for every provider store, initial parameter dict,
counter and poll schedule — when no record named with the domain's
challenge name pre-exists, deploy_challenge issues exactly the existence
check followed by one add call carrying the token, and no remove call;
when such a record pre-exists with some value, it issues exactly the
existence check, then one remove call carrying that pre-existing value,
then one add call carrying the token, in that order. -/
theorem deployChallenge_provider_calls (g : Dict) (store : List (String × String))
    (counter : Nat) (obs : List PollResult) (domain token : String) :
    (match recordExistsLookup store (challengeRecord domain) with
      | none =>
        (deployChallenge g store counter obs domain token).calls.map callCmd =
          [some "dns-list_records", some "dns-add_record"] ∧
        callValue (((deployChallenge g store counter obs domain token).calls).getD 1 []) =
          some token
      | some v =>
        (deployChallenge g store counter obs domain token).calls.map callCmd =
          [some "dns-list_records", some "dns-remove_record", some "dns-add_record"] ∧
        callValue (((deployChallenge g store counter obs domain token).calls).getD 1 []) =
          some v ∧
        callValue (((deployChallenge g store counter obs domain token).calls).getD 2 []) =
          some token) := by
  rcases hl : recordExistsLookup store (challengeRecord domain) with _ | v
  · simp only [hl, deployChallenge]
    refine ⟨?_, ?_⟩
    · simp [callCmd_recordExistsParams, callCmd_addRecordParams]
    · simp [callValue_addRecordParams]
  · simp only [hl, deployChallenge]
    refine ⟨?_, ?_, ?_⟩
    · simp [callCmd_recordExistsParams, callCmd_removeRecordParams, callCmd_addRecordParams]
    · simp [callValue_removeRecordParams]
    · simp [callValue_addRecordParams]

/-- C8 (confirmed): when no matching record exists at the provider,
clean_challenge issues exactly one provider request — the dns-list_records
existence check — and no remove or add request, and the provider's record
store is left unchanged by the issued requests. -/
theorem cleanChallenge_absent_noop (g : Dict) (store : List (String × String))
    (domain : String) (h : recordExistsLookup store (challengeRecord domain) = none) :
    (cleanChallenge g store domain).1.map callCmd = [some "dns-list_records"] ∧
    (cleanChallenge g store domain).1.length = 1 ∧
    applyCalls store (cleanChallenge g store domain).1 = store := by
  simp only [cleanChallenge, h]
  refine ⟨by simp [callCmd_recordExistsParams], rfl, ?_⟩
  simp only [applyCalls, applyCall, callCmd_recordExistsParams]
  rw [if_neg (by decide), if_neg (by decide)]

/-- C8 (witness): the theorem applied to an empty provider store. -/
theorem cleanChallenge_absent_noop_witness :
    (cleanChallenge (initialHostApiParams "K") [] "example.com").1.map callCmd =
      [some "dns-list_records"] ∧
    (cleanChallenge (initialHostApiParams "K") [] "example.com").1.length = 1 ∧
    applyCalls [] (cleanChallenge (initialHostApiParams "K") [] "example.com").1 = [] :=
  cleanChallenge_absent_noop (initialHostApiParams "K") [] "example.com" rfl

/-- C9 (confirmed): for every prior state of the process-wide parameter
dict, an add_record or remove_record call leaves its record, type and
value entries in the shared dict (the assignment aliases HOST_API_PARAMS
rather than copying it), and a subsequent record_exists call overwrites
only the cmd entry, so its request still carries the stale record, type
and value parameters along with cmd = dns-list_records. -/
theorem hostApiParams_cross_call_leak (p : Dict) (r v : String) :
    (alGet (addRecordParams p r v) "record" = some r ∧
     alGet (addRecordParams p r v) "type" = some "TXT" ∧
     alGet (addRecordParams p r v) "value" = some v ∧
     callCmd (recordExistsParams (addRecordParams p r v)) = some "dns-list_records" ∧
     alGet (recordExistsParams (addRecordParams p r v)) "record" = some r ∧
     alGet (recordExistsParams (addRecordParams p r v)) "type" = some "TXT" ∧
     alGet (recordExistsParams (addRecordParams p r v)) "value" = some v) ∧
    (alGet (removeRecordParams p r v) "record" = some r ∧
     alGet (removeRecordParams p r v) "type" = some "TXT" ∧
     alGet (removeRecordParams p r v) "value" = some v ∧
     callCmd (recordExistsParams (removeRecordParams p r v)) = some "dns-list_records" ∧
     alGet (recordExistsParams (removeRecordParams p r v)) "record" = some r ∧
     alGet (recordExistsParams (removeRecordParams p r v)) "type" = some "TXT" ∧
     alGet (recordExistsParams (removeRecordParams p r v)) "value" = some v) := by
  refine ⟨⟨apiQuad_record p _ r v, apiQuad_type p _ r v, apiQuad_value p _ r v,
      callCmd_recordExistsParams _, ?_, ?_, ?_⟩,
    ⟨apiQuad_record p _ r v, apiQuad_type p _ r v, apiQuad_value p _ r v,
      callCmd_recordExistsParams _, ?_, ?_, ?_⟩⟩
  · rw [alGet_recordExistsParams_ne _ (by decide)]
    exact apiQuad_record p _ r v
  · rw [alGet_recordExistsParams_ne _ (by decide)]
    exact apiQuad_type p _ r v
  · rw [alGet_recordExistsParams_ne _ (by decide)]
    exact apiQuad_value p _ r v
  · rw [alGet_recordExistsParams_ne _ (by decide)]
    exact apiQuad_record p _ r v
  · rw [alGet_recordExistsParams_ne _ (by decide)]
    exact apiQuad_type p _ r v
  · rw [alGet_recordExistsParams_ne _ (by decide)]
    exact apiQuad_value p _ r v
